import Mathlib

/-!
Shallow embedding of the VS Code extension client in
src/client/src/extension.ts (tower-lsp-boilerplate).

The module holds one mutable reference, declared as
  let client: LanguageClient
so it is initially the JavaScript value undefined.  `activate` registers
the helloworld command, pushes its disposable onto the context
subscriptions, creates the trace output channel, resolves the launch
command from the environment, builds the run executable and the client
options, constructs a LanguageClient and starts it.  `deactivate` logs,
tests the reference with a strict comparison against null, and otherwise
calls stop on whatever the reference holds.
-/

/-- A JavaScript reference: undefined, null, or an actual value. -/
inductive JsRef (α : Type) where
  | undef : JsRef α
  | null : JsRef α
  | val : α → JsRef α
deriving DecidableEq, Repr

/-- An environment mapping, as `process.env`: a total lookup returning
`none` for absent variables. -/
abbrev Env := String → Option String

structure ExecutableOptions where
  env : Env

/-- The `Executable` shape from vscode-languageclient used by the source. -/
structure Executable where
  command : String
  options : ExecutableOptions

/-- `ServerOptions` with a run and a debug executable. -/
structure ServerOptions where
  run : Executable
  debug : Executable

/-- One entry of a `documentSelector`. -/
structure DocumentFilter where
  scheme : String
  language : String
deriving DecidableEq, Repr

/-- The `LanguageClientOptions` the source builds: document selector,
file-events watcher glob and the trace output channel name. -/
structure LanguageClientOptions where
  documentSelector : List DocumentFilter
  fileEventsGlob : String
  traceOutputChannel : String
deriving DecidableEq, Repr

/-- Lifecycle states of a session handle. -/
inductive LifecycleState where
  | uninitialized
  | starting
  | running
  | stopping
  | stopped
deriving DecidableEq, Repr

/-- A constructed LanguageClient handle, identified by a creation index. -/
structure LanguageClient where
  id : Nat
  name : String
  displayName : String
  serverOptions : ServerOptions
  clientOptions : LanguageClientOptions
  state : LifecycleState

/-- A disposable pushed onto the extension context subscriptions. -/
inductive Disposable where
  | commandRegistration : String → Disposable
deriving DecidableEq, Repr

/-- Observable faults: a rejected start (launch failure) or a synchronous
JavaScript TypeError. -/
inductive Fault where
  | launchFailure
  | typeError
deriving DecidableEq, Repr

/-- The observable effects of activation, in order of occurrence. -/
inductive Event where
  | registerCommand : String → Event
  | pushSubscription : Event
  | createOutputChannel : String → Event
  | logMsg : String → Event
  | constructClient : Nat → Event
  | startClient : Nat → Event
deriving DecidableEq, Repr

/-- The module-level state of extension.ts: the `client` reference, every
handle constructed so far, a fresh-id counter, the context subscriptions,
the created output channels and the console log. -/
structure ExtState where
  client : JsRef Nat
  clients : List LanguageClient
  nextId : Nat
  subscriptions : List Disposable
  outputChannels : List String
  logs : List String

/-- The state before any call: `let client: LanguageClient` leaves the
reference undefined. -/
def initState : ExtState :=
  { client := JsRef.undef
    clients := []
    nextId := 0
    subscriptions := []
    outputChannels := []
    logs := [] }

/-- `process.env.SERVER_PATH ?? 'generic-language-server'`: nullish
coalescing substitutes the default only when the variable is absent. -/
def resolveCommand (env : Env) : String :=
  (env "SERVER_PATH").getD "generic-language-server"

/-- The `run` executable: the resolved command and the spread
`process.env` with RUST_LOG forced to debug. -/
def run (env : Env) : Executable :=
  { command := resolveCommand env
    options := { env := fun k => if k = "RUST_LOG" then some "debug" else env k } }

/-- `serverOptions`: the same executable is used for run and debug. -/
def serverOptions (env : Env) : ServerOptions :=
  { run := run env
    debug := run env }

/-- The `clientOptions` literal of the source. -/
def clientOptions : LanguageClientOptions :=
  { documentSelector := [{ scheme := "file", language := "gen" }]
    fileEventsGlob := "**/*.gen"
    traceOutputChannel := "Generic Language Server trace" }

/-- A document filter matches a document when both its scheme and its
language equal the document fields. -/
def filterMatches (f : DocumentFilter) (scheme languageId : String) : Bool :=
  f.scheme == scheme && f.language == languageId

/-- The document scope predicate induced by the document selector. -/
def documentScopeMatches (scheme languageId : String) : Bool :=
  clientOptions.documentSelector.any (fun f => filterMatches f scheme languageId)

/-- The helloworld.helloWorld command handler: logs the registration
message and the received argument, returns no value and raises nothing. -/
def helloWorldHandler (uri : String) : List String × Except Fault Unit :=
  (["Running command registered as helloworld.helloWorld", uri], Except.ok ())

/-- Update the lifecycle state of the handle with the given id. -/
def setClientState (s : ExtState) (id : Nat) (st : LifecycleState) : ExtState :=
  { s with clients :=
      s.clients.map (fun c => if c.id = id then { c with state := st } else c) }

/-- `activate`: register the command, push its disposable, create the
trace channel, log the resolved command, construct the client, log the
banner and start the client.  `startOk` models whether the external
process spawns; on failure the returned completion is rejected but no
earlier effect is rolled back. -/
def activate (env : Env) (startOk : Bool) (s : ExtState) :
    ExtState × List Event × Except Fault Unit :=
  let command := resolveCommand env
  let id := s.nextId
  let newClient : LanguageClient :=
    { id := id
      name := "generic-language-server"
      displayName := "Generic language server"
      serverOptions := serverOptions env
      clientOptions := clientOptions
      state := LifecycleState.uninitialized }
  let events : List Event :=
    [ Event.registerCommand "helloworld.helloWorld"
    , Event.pushSubscription
    , Event.createOutputChannel "Generic Language Server trace"
    , Event.logMsg command
    , Event.constructClient id
    , Event.logMsg "Running Generic LSP extention"
    , Event.startClient id ]
  let s1 : ExtState :=
    { s with
      subscriptions :=
        s.subscriptions ++ [Disposable.commandRegistration "helloworld.helloWorld"]
      outputChannels := s.outputChannels ++ ["Generic Language Server trace"]
      logs := s.logs ++ [command, "Running Generic LSP extention"]
      clients := s.clients ++ [newClient]
      nextId := id + 1
      client := JsRef.val id }
  if startOk then (setClientState s1 id LifecycleState.running, events, Except.ok ())
  else (setClientState s1 id LifecycleState.starting, events, Except.error Fault.launchFailure)

/-- The strict comparison `client === null`: true only for the JavaScript
null value, false for undefined and for actual values. -/
def jsEqNull {α : Type} : JsRef α → Bool
  | JsRef.null => true
  | _ => false

/-- `deactivate`: log, return undefined when the reference is strictly
null, otherwise call stop on the reference.  Calling stop on undefined is
a synchronous TypeError; on a handle it transitions the handle to stopped
and resolves. -/
def deactivate (s : ExtState) : ExtState × Except Fault (Option Unit) :=
  let s0 : ExtState := { s with logs := s.logs ++ ["Exiting Generic LSP extention"] }
  if jsEqNull s0.client then (s0, Except.ok none)
  else
    match s0.client with
    | JsRef.undef => (s0, Except.error Fault.typeError)
    | JsRef.null => (s0, Except.ok none)
    | JsRef.val id => (setClientState s0 id LifecycleState.stopped, Except.ok (some ()))

/-- Look up a constructed handle by id. -/
def findClient (s : ExtState) (id : Nat) : Option LanguageClient :=
  s.clients.find? (fun c => c.id == id)

/-- States reachable by any interleaving of activation and deactivation
from the initial module state. -/
inductive Reachable : ExtState → Prop where
  | init : Reachable initState
  | stepActivate (env : Env) (ok : Bool) {s : ExtState} :
      Reachable s → Reachable (activate env ok s).1
  | stepDeactivate {s : ExtState} :
      Reachable s → Reachable (deactivate s).1

/-- Every constructed handle has an id below the fresh-id counter. -/
def idsBounded (s : ExtState) : Prop :=
  ∀ c ∈ s.clients, c.id < s.nextId

/-- The environment with no variables set. -/
def envNone : Env := fun _ => none

/-- An environment binding SERVER_PATH to a custom path. -/
def envWithOverride : Env :=
  fun k => if k = "SERVER_PATH" then some "/usr/bin/custom-ls" else none

/-- An environment binding SERVER_PATH to the empty string. -/
def envEmptyOverride : Env :=
  fun k => if k = "SERVER_PATH" then some "" else none

/-- The handle activate constructs, at a given id and lifecycle state. -/
def madeClient (env : Env) (id : Nat) (st : LifecycleState) : LanguageClient :=
  { id := id
    name := "generic-language-server"
    displayName := "Generic language server"
    serverOptions := serverOptions env
    clientOptions := clientOptions
    state := st }

lemma activate_client (env : Env) (ok : Bool) (s : ExtState) :
    (activate env ok s).1.client = JsRef.val s.nextId := by
  cases ok <;> rfl

lemma activate_nextId (env : Env) (ok : Bool) (s : ExtState) :
    (activate env ok s).1.nextId = s.nextId + 1 := by
  cases ok <;> rfl

lemma deactivate_client (s : ExtState) :
    (deactivate s).1.client = s.client := by
  unfold deactivate
  cases hc : s.client <;> simp [jsEqNull, hc, setClientState]

lemma deactivate_nextId (s : ExtState) :
    (deactivate s).1.nextId = s.nextId := by
  unfold deactivate
  cases hc : s.client <;> simp [jsEqNull, hc, setClientState]

lemma find?_id_setClientState (l : List LanguageClient) (tid id : Nat)
    (st : LifecycleState) :
    (l.map (fun c => if c.id = tid then { c with state := st } else c)).find?
        (fun c => c.id == id)
      = (l.find? (fun c => c.id == id)).map
          (fun c => if c.id = tid then { c with state := st } else c) := by
  rw [List.find?_map]
  have hpq : ((fun c : LanguageClient => c.id == id) ∘
      (fun c => if c.id = tid then { c with state := st } else c))
      = fun c : LanguageClient => c.id == id := by
    funext c
    by_cases h : c.id = tid <;> simp [Function.comp, h]
  rw [hpq]

lemma findClient_activate_old (env : Env) (ok : Bool) (s : ExtState) (id : Nat)
    (hid : id ≠ s.nextId) :
    findClient (activate env ok s).1 id = findClient s id := by
  have key : ∀ st : LifecycleState,
      ((s.clients ++ [madeClient env s.nextId LifecycleState.uninitialized]).map
          (fun c => if c.id = s.nextId then { c with state := st } else c)).find?
          (fun c => c.id == id)
        = s.clients.find? (fun c => c.id == id) := by
    intro st
    rw [find?_id_setClientState, List.find?_append]
    have hid2 : s.nextId ≠ id := fun h => hid h.symm
    have hnew : ([madeClient env s.nextId LifecycleState.uninitialized].find?
        (fun c => c.id == id)) = none := by
      simp [madeClient, hid2]
    rw [hnew]
    cases hfind : s.clients.find? (fun c => c.id == id) with
    | none => simp
    | some c =>
      have hc := List.find?_some hfind
      simp only [beq_iff_eq] at hc
      have hcid : c.id ≠ s.nextId := by omega
      simp [hcid]
  cases ok <;> simp only [activate, setClientState, findClient, reduceIte] <;> exact key _

lemma findClient_activate_new (env : Env) (ok : Bool) (s : ExtState)
    (hb : idsBounded s) :
    findClient (activate env ok s).1 s.nextId =
      some (madeClient env s.nextId
        (if ok then LifecycleState.running else LifecycleState.starting)) := by
  have key : ∀ st : LifecycleState,
      ((s.clients ++ [madeClient env s.nextId LifecycleState.uninitialized]).map
          (fun c => if c.id = s.nextId then { c with state := st } else c)).find?
          (fun c => c.id == s.nextId)
        = some (madeClient env s.nextId st) := by
    intro st
    rw [find?_id_setClientState, List.find?_append]
    have hold : s.clients.find? (fun c => c.id == s.nextId) = none := by
      rw [List.find?_eq_none]
      intro c hc
      have := hb c hc
      simp only [beq_iff_eq]
      omega
    rw [hold]
    simp [madeClient]
  cases ok <;> simp only [activate, setClientState, findClient, reduceIte] <;> exact key _

lemma idsBounded_initState : idsBounded initState := by
  intro c hc
  simp [initState] at hc

lemma idsBounded_activate (env : Env) (ok : Bool) (s : ExtState)
    (hb : idsBounded s) : idsBounded (activate env ok s).1 := by
  have key : ∀ st : LifecycleState, ∀ c,
      c ∈ (s.clients ++ [madeClient env s.nextId LifecycleState.uninitialized]).map
          (fun c => if c.id = s.nextId then { c with state := st } else c) →
      c.id < s.nextId + 1 := by
    intro st c hc
    simp only [List.mem_map, List.mem_append, List.mem_singleton] at hc
    obtain ⟨c0, hc0, rfl⟩ := hc
    have hid : (if c0.id = s.nextId then { c0 with state := st } else c0).id = c0.id := by
      by_cases h : c0.id = s.nextId <;> simp [h]
    rw [hid]
    rcases hc0 with h | rfl
    · exact Nat.lt_succ_of_lt (hb c0 h)
    · simp [madeClient]
  intro c hc
  cases ok <;>
    simp only [activate, setClientState] at hc ⊢ <;>
    exact key _ c hc

lemma idsBounded_deactivate (s : ExtState) (hb : idsBounded s) :
    idsBounded (deactivate s).1 := by
  intro c hc
  rw [deactivate_nextId]
  unfold deactivate at hc
  cases hcl : s.client with
  | undef => simp [jsEqNull, hcl] at hc; exact hb c hc
  | null => simp [jsEqNull, hcl] at hc; exact hb c hc
  | val id =>
    simp [jsEqNull, hcl, setClientState, List.mem_map] at hc
    obtain ⟨c0, hc0, rfl⟩ := hc
    have hid : (if c0.id = id then { c0 with state := LifecycleState.stopped } else c0).id
        = c0.id := by
      by_cases h : c0.id = id <;> simp [h]
    rw [hid]
    exact hb c0 hc0

lemma reachable_idsBounded {s : ExtState} (hs : Reachable s) : idsBounded s := by
  induction hs with
  | init => exact idsBounded_initState
  | stepActivate env ok hr ih => exact idsBounded_activate env ok _ ih
  | stepDeactivate hr ih => exact idsBounded_deactivate _ ih

lemma reachable_client_not_null {s : ExtState} (hs : Reachable s) :
    s.client ≠ JsRef.null := by
  induction hs with
  | init => exact fun h => JsRef.noConfusion h
  | stepActivate env ok hr ih =>
    rw [activate_client]
    exact fun h => JsRef.noConfusion h
  | stepDeactivate hr ih =>
    rw [deactivate_client]
    exact ih

/-- C1: the spec requires that deactivate with no prior start resolves as a
no-op and never throws synchronously.  The code checks the reference with a
strict null comparison, but the reference is initially undefined, so the
guard fails and stop is invoked on undefined, a synchronous TypeError.
This theorem evaluates the embedded deactivate at the failing input. -/
theorem deactivate_without_activate_throws :
    (deactivate initState).2 = Except.error Fault.typeError := rfl

/-- C2 counterexample: with SERVER_PATH bound to the empty string the claim
says the resolved command is the default, but nullish coalescing keeps the
empty string, so the resolved command is empty and differs from the
default. -/
theorem resolveCommand_empty_override_counterexample :
    resolveCommand envEmptyOverride = "" ∧
    resolveCommand envEmptyOverride ≠ "generic-language-server" :=
  ⟨rfl, by decide⟩

/-- C2 amended: if the override variable is present, bound to any string
including the empty one, the resolved command equals that string; only when
it is absent does the resolved command equal the default name. -/
theorem resolveCommand_override_or_default (env : Env) :
    (∀ x, env "SERVER_PATH" = some x → resolveCommand env = x) ∧
    (env "SERVER_PATH" = none → resolveCommand env = "generic-language-server") := by
  constructor
  · intro x hx
    simp [resolveCommand, hx]
  · intro hx
    simp [resolveCommand, hx]

/-- C2 witness: the amended statement evaluated on a concrete override
environment and on the empty environment. -/
theorem resolveCommand_override_or_default_witness :
    resolveCommand envWithOverride = "/usr/bin/custom-ls" ∧
    resolveCommand envNone = "generic-language-server" :=
  ⟨(resolveCommand_override_or_default envWithOverride).1 "/usr/bin/custom-ls" rfl,
   (resolveCommand_override_or_default envNone).2 rfl⟩

/-- C3: starting twice without an intervening stop constructs two handles
with distinct ids, leaves the module reference on the second handle, and
the first handle is still running, never stopped, after the sequence. -/
theorem start_twice_leaks (s : ExtState) (env1 env2 : Env) (hs : Reachable s) :
    ∃ c1 c2 : LanguageClient,
      findClient (activate env2 true (activate env1 true s).1).1 s.nextId = some c1 ∧
      findClient (activate env2 true (activate env1 true s).1).1 (s.nextId + 1) = some c2 ∧
      c1.id ≠ c2.id ∧
      (activate env2 true (activate env1 true s).1).1.client = JsRef.val c2.id ∧
      c1.state = LifecycleState.running := by
  have hb := reachable_idsBounded hs
  have hb1 := idsBounded_activate env1 true s hb
  have hn1 : (activate env1 true s).1.nextId = s.nextId + 1 := activate_nextId _ _ _
  refine ⟨madeClient env1 s.nextId LifecycleState.running,
    madeClient env2 (s.nextId + 1) LifecycleState.running, ?_, ?_, ?_, ?_, rfl⟩
  · have hold := findClient_activate_old env2 true (activate env1 true s).1 s.nextId
      (by rw [hn1]; omega)
    have hnew := findClient_activate_new env1 true s hb
    rw [hold, hnew]
    simp
  · have hnew := findClient_activate_new env2 true (activate env1 true s).1 hb1
    rw [hn1] at hnew
    rw [hnew]
    simp
  · simp [madeClient]
  · rw [activate_client, hn1]
    rfl

/-- C3 witness: the double-start sequence evaluated from the initial
state. -/
theorem start_twice_leaks_witness :
    ∃ c1 c2 : LanguageClient,
      findClient (activate envNone true (activate envNone true initState).1).1
        initState.nextId = some c1 ∧
      findClient (activate envNone true (activate envNone true initState).1).1
        (initState.nextId + 1) = some c2 ∧
      c1.id ≠ c2.id ∧
      (activate envNone true (activate envNone true initState).1).1.client
        = JsRef.val c2.id ∧
      c1.state = LifecycleState.running :=
  start_twice_leaks initState envNone envNone Reachable.init

/-- C4: the document scope predicate holds exactly when the scheme is file
and the language identifier is gen. -/
theorem documentScope_matches_iff (scheme languageId : String) :
    documentScopeMatches scheme languageId = true ↔
      (scheme = "file" ∧ languageId = "gen") := by
  simp only [documentScopeMatches, clientOptions, filterMatches, List.any_cons,
    List.any_nil, Bool.or_false, Bool.and_eq_true, beq_iff_eq]
  constructor
  · rintro ⟨h1, h2⟩
    exact ⟨h1.symm, h2.symm⟩
  · rintro ⟨h1, h2⟩
    exact ⟨h1.symm, h2.symm⟩

/-- C5: the launch environment is the inherited environment with RUST_LOG
forced to debug; every other key is passed through unchanged. -/
theorem run_env_forces_rust_log (env : Env) (k : String) :
    (run env).options.env "RUST_LOG" = some "debug" ∧
    (k ≠ "RUST_LOG" → (run env).options.env k = env k) := by
  refine ⟨by simp [run], fun h => ?_⟩
  simp [run, h]

/-- C5 witness: the merged environment evaluated on the empty environment
at the forced key and at an unrelated key. -/
theorem run_env_forces_rust_log_witness :
    (run envNone).options.env "RUST_LOG" = some "debug" ∧
    (run envNone).options.env "PATH" = envNone "PATH" :=
  ⟨(run_env_forces_rust_log envNone "PATH").1,
   (run_env_forces_rust_log envNone "PATH").2 (by decide)⟩

/-- C6: for the same environment the run and debug executables are the
same: same record, hence same command and same environment mapping. -/
theorem run_debug_identical (env : Env) :
    (serverOptions env).run = (serverOptions env).debug ∧
    (serverOptions env).run.command = (serverOptions env).debug.command ∧
    (serverOptions env).run.options.env = (serverOptions env).debug.options.env :=
  ⟨rfl, rfl, rfl⟩

/-- C7: with no override variable set, the handle constructed by activation
carries the watch glob for .gen files and the file/gen scope rule. -/
theorem activation_watch_and_scope (s : ExtState) (env : Env) (ok : Bool)
    (hs : Reachable s) (henv : env "SERVER_PATH" = none) :
    ∃ c, findClient (activate env ok s).1 s.nextId = some c ∧
      c.clientOptions.fileEventsGlob = "**/*.gen" ∧
      c.clientOptions.documentSelector = [{ scheme := "file", language := "gen" }] :=
  ⟨madeClient env s.nextId
      (if ok then LifecycleState.running else LifecycleState.starting),
   findClient_activate_new env ok s (reachable_idsBounded hs), rfl, rfl⟩

/-- C7 witness: activation evaluated from the initial state with the empty
environment. -/
theorem activation_watch_and_scope_witness :
    ∃ c, findClient (activate envNone true initState).1 initState.nextId = some c ∧
      c.clientOptions.fileEventsGlob = "**/*.gen" ∧
      c.clientOptions.documentSelector = [{ scheme := "file", language := "gen" }] :=
  activation_watch_and_scope initState envNone true Reachable.init rfl

/-- C8: the auxiliary command handler logs exactly the registration message
and its argument, returns no value, and signals no fault to the caller. -/
theorem helloWorld_handler_logs_only (uri : String) :
    (helloWorldHandler uri).1 =
      ["Running command registered as helloworld.helloWorld", uri] ∧
    (helloWorldHandler uri).2 = Except.ok () :=
  ⟨rfl, rfl⟩

/-- C9: in every reachable state the strict null guard in deactivate is
false, so the early-return branch is dead and deactivate calls stop on
whatever the reference holds: a TypeError when it is still undefined, a
real stop when it holds a handle. -/
theorem deactivate_null_guard_dead (s : ExtState) (hs : Reachable s) :
    jsEqNull s.client = false ∧
    (s.client = JsRef.undef → (deactivate s).2 = Except.error Fault.typeError) ∧
    (∀ id, s.client = JsRef.val id → (deactivate s).2 = Except.ok (some ())) := by
  have hnn := reachable_client_not_null hs
  refine ⟨?_, ?_, ?_⟩
  · cases hc : s.client with
    | undef => rfl
    | null => exact absurd hc hnn
    | val id => rfl
  · intro h
    simp [deactivate, jsEqNull, h]
  · intro id h
    simp [deactivate, jsEqNull, h]

/-- C9 witness: the guard and the undefined branch evaluated in the initial
state. -/
theorem deactivate_null_guard_dead_witness :
    jsEqNull initState.client = false ∧
    (deactivate initState).2 = Except.error Fault.typeError :=
  ⟨(deactivate_null_guard_dead initState Reachable.init).1,
   (deactivate_null_guard_dead initState Reachable.init).2.1 rfl⟩

/-- C10: activation emits its effects in a fixed order, with the command
registration, the subscription push and the trace channel creation all
strictly before the client is constructed and started; when start rejects,
the result is a launch failure but the subscription and the channel remain
in place, so no completed step is rolled back. -/
theorem activate_order_and_no_rollback (s : ExtState) (env : Env) (ok : Bool) :
    (activate env ok s).2.1 =
      [ Event.registerCommand "helloworld.helloWorld"
      , Event.pushSubscription
      , Event.createOutputChannel "Generic Language Server trace"
      , Event.logMsg (resolveCommand env)
      , Event.constructClient s.nextId
      , Event.logMsg "Running Generic LSP extention"
      , Event.startClient s.nextId ] ∧
    (activate env false s).2.2 = Except.error Fault.launchFailure ∧
    (activate env false s).1.subscriptions =
      s.subscriptions ++ [Disposable.commandRegistration "helloworld.helloWorld"] ∧
    (activate env false s).1.outputChannels =
      s.outputChannels ++ ["Generic Language Server trace"] := by
  refine ⟨?_, rfl, rfl, rfl⟩
  cases ok <;> rfl
